import Mathlib

/-!
Verification of the core of a networked key-value service with pub/sub
(Rust repository `kv`). The definitions below are a shallow embedding of
the source files `src/service/mod.rs`, `src/service/command_service.rs`,
`src/storage/rocksdb.rs` and `src/error.rs`; parts of the repository that
are not available as source (the protobuf value model in `pb/abi.rs`, the
in-memory `MemTable` backend, and the topic broadcaster in
`service/topic.rs`) are modelled from the specification and are marked as
such in their doc comments.
-/

set_option autoImplicit false

namespace Kv

/-- Modelled from the spec: the oneof payload of the protobuf `Value`
message (`value::Value` in the generated `pb/abi.rs`, which is not under
`src/`): a tagged union over string, binary blob, signed 64-bit integer,
64-bit float and boolean.  The float payload is represented by its IEEE-754
bit pattern (a natural number below 2^64); bytes are naturals below 256. -/
inductive value.Value where
  | String (s : String)
  | Binary (b : List Nat)
  | Integer (i : Int)
  | Float (bits : Nat)
  | Bool (b : Bool)
deriving DecidableEq, Repr

/-- Modelled from the spec: the protobuf `Value` message (not under
`src/`): an optional `value::Value` payload.  The default value is the
absent/empty variant `⟨none⟩`. -/
structure Value where
  value : Option value.Value
deriving DecidableEq, Repr

/-- The default `Value`: the absent/empty variant. -/
def Value.default : Value := ⟨none⟩

/-- Modelled from the spec: `Kvpair` (not under `src/`):
`(key: string, value: Value)`, with the value protobuf-optional. -/
structure Kvpair where
  key : String
  value : Option Value
deriving DecidableEq, Repr

/-- Modelled from the spec: `CommandResponse` (not under `src/`):
`(status, message, values, pairs)`; status follows HTTP conventions. -/
structure CommandResponse where
  status : Nat
  message : String
  values : List Value
  pairs : List Kvpair
deriving DecidableEq, Repr

/-- The all-fields-default `CommandResponse`, the distinguished sentinel
used by the dispatcher (`CommandResponse::default()` in the source). -/
def CommandResponse.default : CommandResponse :=
  { status := 0, message := "", values := [], pairs := [] }

/-- The error type of the service, from `src/error.rs` (`KvError`).  The
prost encode/decode wrapper payloads are represented by their rendered
message strings. -/
inductive KvError where
  | NotFound (table key : String)
  | InvalidCommand (reason : String)
  | ConvertError (v : Value) (target : String)
  | StorageError (op table key detail : String)
  | EncodeError (detail : String)
  | DecodeError (detail : String)
  | Internal (detail : String)
  | PermissionDenied (reason : String)
  | TableNotFound (table : String)
deriving DecidableEq, Repr

/-- The human-readable rendering of a `KvError`, from the `thiserror`
attributes in `src/error.rs`.  The `ConvertError` case elides the Rust
`Debug` rendering (`{0:?}`) of the offending value. -/
def KvError.display : KvError → String
  | .NotFound table key => s!"Not found for table: {table}, key: {key}"
  | .InvalidCommand reason => s!"Command is invalid: `{reason}`"
  | .ConvertError _ target => s!"Cannot convert value To {target}"
  | .StorageError op table key detail =>
      s!"Cannot process command {op} with table: {table}, key: {key}. Error: {detail}"
  | .EncodeError _ => "Failed to encode protobuf message"
  | .DecodeError _ => "Failed to decode protobuf message"
  | .Internal detail => s!"Internal error: {detail}"
  | .PermissionDenied reason => s!"permission denied: {reason}"
  | .TableNotFound table => s!"Not found for table: {table}"

/-- Modelled from the spec: the status code a `KvError` maps to in a
response (spec §7 error taxonomy; the `From<KvError> for CommandResponse`
impl lives in the missing `pb/abi.rs`): 404 not-found, 400 invalid,
403 permission-denied, 500 internal. -/
def KvError.status : KvError → Nat
  | .NotFound _ _ => 404
  | .TableNotFound _ => 404
  | .InvalidCommand _ => 400
  | .ConvertError _ _ => 400
  | .PermissionDenied _ => 403
  | .StorageError _ _ _ _ => 500
  | .EncodeError _ => 500
  | .DecodeError _ => 500
  | .Internal _ => 500

/-- Modelled from the spec: `From<KvError> for CommandResponse` (in the
missing `pb/abi.rs`): the error's status code, its rendered message, and
empty values and pairs (the source tests `assert_res_error` in
`src/service/mod.rs` pin exactly this shape). -/
def KvError.intoResponse (e : KvError) : CommandResponse :=
  { status := e.status, message := e.display, values := [], pairs := [] }

/-- Modelled from the spec: `From<Value> for CommandResponse` (missing
`pb/abi.rs`): status 200, empty message, the single value, no pairs (the
source tests `assert_res_ok` pin this shape). -/
def Value.intoResponse (v : Value) : CommandResponse :=
  { status := 200, message := "", values := [v], pairs := [] }

/-- Modelled from the spec: `From<Vec<Value>> for CommandResponse`
(missing `pb/abi.rs`): status 200 and the list as `values`. -/
def valuesIntoResponse (vs : List Value) : CommandResponse :=
  { status := 200, message := "", values := vs, pairs := [] }

/-- Modelled from the spec: `From<Vec<Kvpair>> for CommandResponse`
(missing `pb/abi.rs`): status 200 and the list as `pairs`. -/
def pairsIntoResponse (ps : List Kvpair) : CommandResponse :=
  { status := 200, message := "", values := [], pairs := ps }

/-- Modelled from the spec: `From<bool> for Value` (missing `pb/abi.rs`). -/
def boolIntoValue (b : Bool) : Value := ⟨some (value.Value.Bool b)⟩

/-- Modelled from the spec: the conversion of a `KvError` into a `Value`
used by the `Hmdel`/`Hmexist` handlers on per-key errors.  The spec does
not describe this conversion and no claim depends on it; it is modelled as
the default value. -/
def KvError.intoValue (_ : KvError) : Value := Value.default

/-- Modelled from the spec: the `Hget(table, key)` request message
(`pb/abi.rs` is not under `src/`). -/
structure Hget where
  table : String
  key : String
deriving DecidableEq, Repr

/-- Modelled from the spec: the `Hgetall(table)` request message. -/
structure Hgetall where
  table : String
deriving DecidableEq, Repr

/-- Modelled from the spec: the `Hset(table, pair)` request message; the
pair is protobuf-optional, so it may be absent. -/
structure Hset where
  table : String
  pair : Option Kvpair
deriving DecidableEq, Repr

/-- Modelled from the spec: the `Hmget(table, keys)` request message. -/
structure Hmget where
  table : String
  keys : List String
deriving DecidableEq, Repr

/-- Modelled from the spec: the `Hmset(table, pairs)` request message. -/
structure Hmset where
  table : String
  pairs : List Kvpair
deriving DecidableEq, Repr

/-- Modelled from the spec: the `Hdel(table, key)` request message. -/
structure Hdel where
  table : String
  key : String
deriving DecidableEq, Repr

/-- Modelled from the spec: the `Hmdel(table, keys)` request message. -/
structure Hmdel where
  table : String
  keys : List String
deriving DecidableEq, Repr

/-- Modelled from the spec: the `Hexist(table, key)` request message. -/
structure Hexist where
  table : String
  key : String
deriving DecidableEq, Repr

/-- Modelled from the spec: the `Hmexist(table, keys)` request message. -/
structure Hmexist where
  table : String
  keys : List String
deriving DecidableEq, Repr

/-- Modelled from the spec: the `Subscribe(topic)` streaming request. -/
structure Subscribe where
  topic : String
deriving DecidableEq, Repr

/-- Modelled from the spec: the `Unsubscribe(topic, id)` streaming
request; the subscriber id is a 32-bit integer. -/
structure Unsubscribe where
  topic : String
  id : Nat
deriving DecidableEq, Repr

/-- Modelled from the spec: the `Publish(topic, data)` streaming request. -/
structure Publish where
  topic : String
  data : List Value
deriving DecidableEq, Repr

/-- Modelled from the spec: the `command_request::RequestData` oneof over
all command variants (spec §3 data model). -/
inductive RequestData where
  | Hget (p : Hget)
  | Hgetall (p : Hgetall)
  | Hset (p : Hset)
  | Hmget (p : Hmget)
  | Hmset (p : Hmset)
  | Hdel (p : Hdel)
  | Hmdel (p : Hmdel)
  | Hexist (p : Hexist)
  | Hmexist (p : Hmexist)
  | Subscribe (p : Subscribe)
  | Unsubscribe (p : Unsubscribe)
  | Publish (p : Publish)
deriving DecidableEq, Repr

/-- Modelled from the spec: `CommandRequest`, whose protobuf-optional
payload is the `RequestData` oneof. -/
structure CommandRequest where
  request_data : Option RequestData
deriving DecidableEq, Repr

/-- Whether a byte is a UTF-8 continuation byte (`0b10xxxxxx`). -/
def isCont (b : Nat) : Bool := 0x80 ≤ b && b < 0xC0

/-- Lossy UTF-8 decoding of a byte sequence, as performed by Rust's
`String::from_utf8_lossy` (used in `src/storage/rocksdb.rs`): well-formed
scalar sequences decode to their scalar value; an ill-formed sequence is
replaced by U+FFFD for its maximal valid prefix, per the WHATWG
substitution policy implemented by the Rust standard library.  Every step
consumes at least one byte and spends exactly one unit of fuel, so a fuel
equal to the byte count always suffices; the fuel only makes the
recursion structural. -/
def utf8LossyFuel : Nat → List Nat → List Char
  | _, [] => []
  | 0, _ => []
  | fuel + 1, b :: rest =>
    if b < 0x80 then
      Char.ofNat b :: utf8LossyFuel fuel rest
    else if b < 0xC2 then
      -- stray continuation byte or overlong 2-byte lead (C0/C1)
      Char.ofNat 0xFFFD :: utf8LossyFuel fuel rest
    else if b < 0xE0 then
      match rest with
      | b1 :: rest1 =>
        if isCont b1 then
          Char.ofNat ((b - 0xC0) * 0x40 + (b1 - 0x80)) :: utf8LossyFuel fuel rest1
        else
          Char.ofNat 0xFFFD :: utf8LossyFuel fuel rest
      | [] => [Char.ofNat 0xFFFD]
    else if b < 0xF0 then
      -- 3-byte form; the first continuation range depends on the lead:
      -- E0 requires A0..BF (no overlongs), ED requires 80..9F (no
      -- surrogates), the rest accept 80..BF.
      match rest with
      | b1 :: rest1 =>
        let okB1 : Bool :=
          if b = 0xE0 then 0xA0 ≤ b1 && b1 < 0xC0
          else if b = 0xED then 0x80 ≤ b1 && b1 < 0xA0
          else isCont b1
        if okB1 then
          match rest1 with
          | b2 :: rest2 =>
            if isCont b2 then
              Char.ofNat ((b - 0xE0) * 0x1000 + (b1 - 0x80) * 0x40 + (b2 - 0x80))
                :: utf8LossyFuel fuel rest2
            else
              Char.ofNat 0xFFFD :: utf8LossyFuel fuel rest1
          | [] => [Char.ofNat 0xFFFD]
        else
          Char.ofNat 0xFFFD :: utf8LossyFuel fuel rest
      | [] => [Char.ofNat 0xFFFD]
    else if b < 0xF5 then
      -- 4-byte form; F0 requires 90..BF, F4 requires 80..8F.
      match rest with
      | b1 :: rest1 =>
        let okB1 : Bool :=
          if b = 0xF0 then 0x90 ≤ b1 && b1 < 0xC0
          else if b = 0xF4 then 0x80 ≤ b1 && b1 < 0x90
          else isCont b1
        if okB1 then
          match rest1 with
          | b2 :: rest2 =>
            if isCont b2 then
              match rest2 with
              | b3 :: rest3 =>
                if isCont b3 then
                  Char.ofNat ((b - 0xF0) * 0x40000 + (b1 - 0x80) * 0x1000 +
                      (b2 - 0x80) * 0x40 + (b3 - 0x80)) :: utf8LossyFuel fuel rest3
                else
                  Char.ofNat 0xFFFD :: utf8LossyFuel fuel rest2
              | [] => [Char.ofNat 0xFFFD]
            else
              Char.ofNat 0xFFFD :: utf8LossyFuel fuel rest1
          | [] => [Char.ofNat 0xFFFD]
        else
          Char.ofNat 0xFFFD :: utf8LossyFuel fuel rest
      | [] => [Char.ofNat 0xFFFD]
    else
      -- F5..FF can never start a scalar sequence
      Char.ofNat 0xFFFD :: utf8LossyFuel fuel rest

/-- Lossy UTF-8 decoding of a byte sequence (see `utf8LossyFuel`). -/
def utf8Lossy (l : List Nat) : List Char := utf8LossyFuel l.length l

/-- Rust's `char::is_control`: the Unicode `Cc` category,
U+0000..U+001F and U+007F..U+009F. -/
def isControl (c : Char) : Bool :=
  c.toNat < 0x20 || (0x7F ≤ c.toNat && c.toNat ≤ 0x9F)

/-- Rust's `str::trim_matches(pred)`: remove matching characters from
both ends of the character sequence. -/
def trimMatches (pred : Char → Bool) (cs : List Char) : List Char :=
  ((cs.dropWhile pred).reverse.dropWhile pred).reverse

/-- The `From<Vec<u8>> for Value` conversion at
`src/storage/rocksdb.rs:130`: interpret the stored bytes as lossy UTF-8,
trim leading and trailing control characters, and wrap the result in the
string variant. -/
def valueFromBytes (data : List Nat) : Value :=
  ⟨some (value.Value.String (String.mk (trimMatches isControl (utf8Lossy data))))⟩

/-- LEB128 unsigned varint encoding with an explicit iteration bound (the
dividend shrinks by a factor 128 each step, so a fuel of `n` always
suffices; the fuel only makes the recursion structural). -/
def uvarintFuel : Nat → Nat → List Nat
  | 0, n => [n]
  | fuel + 1, n =>
    if n < 0x80 then [n] else (n % 0x80 + 0x80) :: uvarintFuel fuel (n / 0x80)

/-- LEB128 unsigned varint encoding, least-significant group first (the
variable-length integer of the field-tagged encoding named in spec §6). -/
def uvarint (n : Nat) : List Nat := uvarintFuel n n

/-- The two's-complement 64-bit image of a signed integer. -/
def i64ToU64 (i : Int) : Nat := (i % (2 ^ 64 : Nat)).toNat

/-- Little-endian 8-byte encoding of a 64-bit pattern. -/
def toLE8 (bits : Nat) : List Nat :=
  [bits % 256, bits / 256 % 256, bits / 256 ^ 2 % 256, bits / 256 ^ 3 % 256,
   bits / 256 ^ 4 % 256, bits / 256 ^ 5 % 256, bits / 256 ^ 6 % 256, bits / 256 ^ 7 % 256]

/-- The UTF-8 encoding of one character, as naturals (the standard
library's `String.utf8EncodeChar`, with the shift-and-mask arithmetic
written over naturals). -/
def utf8EncodeCharNat (c : Char) : List Nat :=
  let v := c.toNat
  if v ≤ 0x7F then [v]
  else if v ≤ 0x7FF then [v / 0x40 + 0xC0, v % 0x40 + 0x80]
  else if v ≤ 0xFFFF then
    [v / 0x1000 + 0xE0, v / 0x40 % 0x40 + 0x80, v % 0x40 + 0x80]
  else
    [v / 0x40000 + 0xF0, v / 0x1000 % 0x40 + 0x80, v / 0x40 % 0x40 + 0x80, v % 0x40 + 0x80]

/-- The UTF-8 bytes of a string, as naturals. -/
def stringBytes (s : String) : List Nat := s.data.flatMap utf8EncodeCharNat

/-- Modelled from the spec: `TryFrom<Value> for Vec<u8>` (in the missing
`pb/abi.rs`), the serialisation of a `Value` used by the column-family
backend's `set`.  Spec §6 fixes "field-tagged variable-length encoding"
(the protobuf wire format of the `Value` message): each present oneof
field is emitted as its key byte (field number shifted left by three,
or-ed with the wire type) followed by its payload; the absent variant
serialises to no bytes. -/
def valueTryIntoBytes : Value → List Nat
  | ⟨none⟩ => []
  | ⟨some (value.Value.String s)⟩ => 0x0A :: uvarint (stringBytes s).length ++ stringBytes s
  | ⟨some (value.Value.Binary b)⟩ => 0x12 :: uvarint b.length ++ b
  | ⟨some (value.Value.Integer i)⟩ => 0x18 :: uvarint (i64ToU64 i)
  | ⟨some (value.Value.Float bits)⟩ => 0x21 :: toLE8 bits
  | ⟨some (value.Value.Bool b)⟩ => [0x28, if b then 1 else 0]

/-- Replace the binding of a key in an association list, or append it if
the key is absent.  Used to model in-place map updates. -/
def alSet {α β : Type} [DecidableEq α] : List (α × β) → α → β → List (α × β)
  | [], a, b => [(a, b)]
  | (a1, b1) :: rest, a, b =>
    if a1 = a then (a, b) :: rest else (a1, b1) :: alSet rest a b

/-- Remove the first binding of a key from an association list (a no-op
when the key is absent). -/
def alRemove {α β : Type} [DecidableEq α] : List (α × β) → α → List (α × β)
  | [], _ => []
  | (a1, b1) :: rest, a =>
    if a1 = a then rest else (a1, b1) :: alRemove rest a

/-- A rocksdb column family: the mapping from key to the raw bytes stored
under it.  Keys are modelled as the strings whose UTF-8 bytes the backend
stores (`key.as_bytes()` is injective on strings). -/
abbrev ColumnFamily := List (String × List Nat)

/-- The state of the `Rocksdb` backend of `src/storage/rocksdb.rs`: the
mapping from column-family (table) name to its key/bytes map.  The model
keeps each column family as an association list; rocksdb iterates keys in
byte order, an order no claim depends on. -/
abbrev Rocksdb := List (String × ColumnFamily)

/-- `Rocksdb::get` (src/storage/rocksdb.rs:16): a missing column family
yields `Ok(None)`; otherwise the stored bytes, if any, are converted with
`From<Vec<u8>> for Value`. -/
def Rocksdb.get (db : Rocksdb) (table key : String) : Except KvError (Option Value) :=
  match db.lookup table with
  | none => .ok none
  | some cf => .ok ((cf.lookup key).map valueFromBytes)

/-- `Rocksdb::set` (src/storage/rocksdb.rs:30): create the column family
if missing, read the prior bytes (converted like `get`), serialise the new
value and store its bytes; returns the prior value. -/
def Rocksdb.set (db : Rocksdb) (table key : String) (v : Value) :
    Except KvError (Option Value) × Rocksdb :=
  let cf := match db.lookup table with
    | some cf => cf
    | none => ([] : ColumnFamily)
  let old := (cf.lookup key).map valueFromBytes
  let data := valueTryIntoBytes v
  (.ok old, alSet db table (alSet cf key data))

/-- `Rocksdb::contains` (src/storage/rocksdb.rs:65): false when the
column family or the key is missing. -/
def Rocksdb.contains (db : Rocksdb) (table key : String) : Except KvError Bool :=
  match db.lookup table with
  | none => .ok false
  | some cf => .ok (cf.lookup key).isSome

/-- `Rocksdb::del` (src/storage/rocksdb.rs:79): a missing column family
returns `Ok(None)` without touching the database; otherwise the prior
value is read and the key deleted. -/
def Rocksdb.del (db : Rocksdb) (table key : String) :
    Except KvError (Option Value) × Rocksdb :=
  match db.lookup table with
  | none => (.ok none, db)
  | some cf =>
    ((.ok ((cf.lookup key).map valueFromBytes)), alSet db table (alRemove cf key))

/-- `Rocksdb::get_all` (src/storage/rocksdb.rs:99): a missing column
family yields the empty list; otherwise each stored pair is returned with
its bytes converted by `From<Vec<u8>> for Value` (the key, valid UTF-8 by
construction, is returned unchanged by `from_utf8_lossy`). -/
def Rocksdb.get_all (db : Rocksdb) (table : String) : Except KvError (List Kvpair) :=
  match db.lookup table with
  | none => .ok []
  | some cf => .ok (cf.map fun p => ⟨p.1, some (valueFromBytes p.2)⟩)

/-- `Rocksdb::get_iter` (src/storage/rocksdb.rs:118): materialises
`get_all` and iterates the owned pairs. -/
def Rocksdb.get_iter (db : Rocksdb) (table : String) : Except KvError (List Kvpair) :=
  Rocksdb.get_all db table

/-- The `Storage` trait consumed by the command handlers, as a record of
state-threading capabilities over a backend state `σ` (the trait itself is
declared in the `storage` module, not under `src/`; the capability set and
signatures follow spec §4.1 and the calls made by
`src/service/command_service.rs`).  `get`, `contains` and `get_iter` take
`&self` and cannot mutate the logical state; `set` and `del` return the
updated state. -/
structure Storage (σ : Type) where
  get : σ → String → String → Except KvError (Option Value)
  set : σ → String → String → Value → Except KvError (Option Value) × σ
  contains : σ → String → String → Except KvError Bool
  del : σ → String → String → Except KvError (Option Value) × σ
  get_iter : σ → String → Except KvError (List Kvpair)

/-- The `Storage` capability of the rocksdb backend. -/
def rocksdbStorage : Storage Rocksdb :=
  { get := Rocksdb.get
    set := fun db t k v => Rocksdb.set db t k v
    contains := Rocksdb.contains
    del := Rocksdb.del
    get_iter := Rocksdb.get_iter }

/-- Modelled from the spec: the state of the reference in-memory backend
(`MemTable`, not under `src/`): a mapping from table name to a mapping
from key to value (spec §4.1). -/
abbrev MemTable := List (String × List (String × Value))

/-- Modelled from the spec: `MemTable` lookup — absent table or key gives
`None`, never an error. -/
def MemTable.get (m : MemTable) (table key : String) : Option Value :=
  (m.lookup table).bind fun t => t.lookup key

/-- Modelled from the spec: the `Storage` capability of the in-memory
backend: `set` creates the table if missing and returns the prior value,
`del` removes and returns the prior value, `get_iter` yields a snapshot of
the table's pairs. -/
def memTableStorage : Storage MemTable :=
  { get := fun m t k => .ok (MemTable.get m t k)
    set := fun m t k v =>
      let tbl := (m.lookup t).getD []
      (.ok (tbl.lookup k), alSet m t (alSet tbl k v))
    contains := fun m t k => .ok (MemTable.get m t k).isSome
    del := fun m t k =>
      match m.lookup t with
      | none => (.ok none, m)
      | some tbl => (.ok (tbl.lookup k), alSet m t (alRemove tbl k))
    get_iter := fun m t =>
      .ok (((m.lookup t).getD []).map fun p => ⟨p.1, some p.2⟩) }

/-- `impl CommandService for Hget` (src/service/command_service.rs:3):
found values convert to a response, a missing key becomes `NotFound`,
backend errors convert to an error response. -/
def Hget.execute {σ : Type} (self : Hget) (store : Storage σ) (s : σ) : CommandResponse :=
  match store.get s self.table self.key with
  | .ok (some v) => v.intoResponse
  | .ok none => (KvError.NotFound self.table self.key).intoResponse
  | .error e => e.intoResponse

/-- `impl CommandService for Hgetall` (src/service/command_service.rs:13):
the handler calls `store.get_iter(&self.table).unwrap()`, so a backend
error panics; the panic is modelled as `none`. -/
def Hgetall.execute {σ : Type} (self : Hgetall) (store : Storage σ) (s : σ) :
    Option CommandResponse :=
  match store.get_iter s self.table with
  | .ok pairs => some (pairsIntoResponse pairs)
  | .error _ => none

/-- `impl CommandService for Hset` (src/service/command_service.rs:24): an
absent pair yields the default-value success response without touching the
store; otherwise `set` is called with the pair's key and its value (or the
default value when the pair's value is absent). -/
def Hset.execute {σ : Type} (self : Hset) (store : Storage σ) (s : σ) :
    CommandResponse × σ :=
  match self.pair with
  | some p =>
    match store.set s self.table p.key (p.value.getD Value.default) with
    | (.ok (some v), s1) => (v.intoResponse, s1)
    | (.ok none, s1) => (Value.default.intoResponse, s1)
    | (.error e, s1) => (e.intoResponse, s1)
  | none => (Value.default.intoResponse, s)

/-- `impl CommandService for Hmget` (src/service/command_service.rs:37):
map each key through `get`; a found value is kept, anything else (missing
key or backend error) becomes the default value. -/
def Hmget.execute {σ : Type} (self : Hmget) (store : Storage σ) (s : σ) : CommandResponse :=
  valuesIntoResponse (self.keys.map fun key =>
    match store.get s self.table key with
    | .ok (some v) => v
    | _ => Value.default)

/-- `impl CommandService for Hmset` (src/service/command_service.rs:60):
set each pair in order, threading the store state; prior values are
collected, with the default value where there was none (or on error). -/
def Hmset.execute {σ : Type} (self : Hmset) (store : Storage σ) (s : σ) :
    CommandResponse × σ :=
  let r := self.pairs.foldl
    (fun (acc : List Value × σ) pair =>
      match store.set acc.2 self.table pair.key (pair.value.getD Value.default) with
      | (.ok (some v), s1) => (acc.1 ++ [v], s1)
      | (_, s1) => (acc.1 ++ [Value.default], s1))
    ([], s)
  (valuesIntoResponse r.1, r.2)

/-- `impl CommandService for Hdel` (src/service/command_service.rs:86): a
deleted value converts to a response, an absent key becomes `NotFound`,
backend errors convert to an error response. -/
def Hdel.execute {σ : Type} (self : Hdel) (store : Storage σ) (s : σ) :
    CommandResponse × σ :=
  match store.del s self.table self.key with
  | (.ok (some v), s1) => (v.intoResponse, s1)
  | (.ok none, s1) => ((KvError.NotFound self.table self.key).intoResponse, s1)
  | (.error e, s1) => (e.intoResponse, s1)

/-- `impl CommandService for Hmdel` (src/service/command_service.rs:96):
delete each key in order, collecting per-key values (errors convert to
values through the pb conversion). -/
def Hmdel.execute {σ : Type} (self : Hmdel) (store : Storage σ) (s : σ) :
    CommandResponse × σ :=
  let r := self.keys.foldl
    (fun (acc : List Value × σ) key =>
      match store.del acc.2 self.table key with
      | (.ok (some v), s1) => (acc.1 ++ [v], s1)
      | (.ok none, s1) => (acc.1 ++ [(KvError.NotFound self.table key).intoValue], s1)
      | (.error e, s1) => (acc.1 ++ [e.intoValue], s1))
    ([], s)
  (valuesIntoResponse r.1, r.2)

/-- `impl CommandService for Hexist` (src/service/command_service.rs:110). -/
def Hexist.execute {σ : Type} (self : Hexist) (store : Storage σ) (s : σ) :
    CommandResponse :=
  match store.contains s self.table self.key with
  | .ok v => (boolIntoValue v).intoResponse
  | .error e => e.intoResponse

/-- `impl CommandService for Hmexist` (src/service/command_service.rs:119). -/
def Hmexist.execute {σ : Type} (self : Hmexist) (store : Storage σ) (s : σ) :
    CommandResponse :=
  valuesIntoResponse (self.keys.map fun key =>
    match store.contains s self.table key with
    | .ok v => boolIntoValue v
    | .error e => e.intoValue)

/-- The unary dispatcher `dispatch` (src/service/mod.rs:103).  Exactly the
arms of the source `match`: `Hget`, `Hgetall`, `Hset`, `Hmset`, `Hdel`,
`Hmdel`, `Hexist` and `Hmexist` run their handlers, an absent payload is
an invalid command, and every other variant — the pub/sub commands and
also `Hmget`, which has no arm — falls to the `_` arm returning the
default sentinel response.  The result is `none` when a handler panics
(only `Hgetall`'s `unwrap` can). -/
def dispatch {σ : Type} (cmd : CommandRequest) (store : Storage σ) (s : σ) :
    Option (CommandResponse × σ) :=
  match cmd.request_data with
  | some (.Hget p) => some (p.execute store s, s)
  | some (.Hgetall p) => (p.execute store s).map fun r => (r, s)
  | some (.Hset p) => some (p.execute store s)
  | some (.Hmset p) => some (p.execute store s)
  | some (.Hdel p) => some (p.execute store s)
  | some (.Hmdel p) => some (p.execute store s)
  | some (.Hexist p) => some (p.execute store s, s)
  | some (.Hmexist p) => some (p.execute store s, s)
  | none => some ((KvError.InvalidCommand "Request has no data").intoResponse, s)
  | some _ => some (CommandResponse.default, s)

/-- The routing decision of the streaming dispatcher: which
topic-service call a command is handed to. -/
inductive StreamCall where
  | Publish (p : Publish)
  | Subscribe (p : Subscribe)
  | Unsubscribe (p : Unsubscribe)
deriving DecidableEq, Repr

/-- The streaming dispatcher `dispatch_stream` (src/service/mod.rs:120):
publish/subscribe/unsubscribe are handed to the topic service; any other
command reaching it hits `unreachable!()` and panics, modelled as `none`. -/
def dispatch_stream (cmd : CommandRequest) : Option StreamCall :=
  match cmd.request_data with
  | some (.Publish p) => some (.Publish p)
  | some (.Subscribe p) => some (.Subscribe p)
  | some (.Unsubscribe p) => some (.Unsubscribe p)
  | _ => none

/-- `impl Notify for Vec<fn(&Arg) -> Option<CommandResponse>>`
(src/service/mod.rs:140): call the interceptors in order and return the
first `Some`, skipping the rest of the chain. -/
def notify {Arg : Type} (fs : List (Arg → Option CommandResponse)) (arg : Arg) :
    Option CommandResponse :=
  match fs with
  | [] => none
  | f :: rest =>
    match f arg with
    | some res => some res
    | none => notify rest arg

/-- `impl NotifyMut for Vec<fn(&mut Arg) -> Option<CommandResponse>>`
(src/service/mod.rs:152): each interceptor may mutate the argument in
place and return an optional response; the first `Some` stops the chain.
A Rust `fn(&mut Arg) -> Option<CommandResponse>` is modelled as
`Arg → Arg × Option CommandResponse` (updated argument plus result). -/
def notifyMut (fs : List (CommandResponse → CommandResponse × Option CommandResponse))
    (arg : CommandResponse) : CommandResponse × Option CommandResponse :=
  match fs with
  | [] => (arg, none)
  | f :: rest =>
    match f arg with
    | (arg1, some res) => (arg1, some res)
    | (arg1, none) => notifyMut rest arg1

/-- The `Service` struct (src/service/mod.rs:17): the storage capability
and the four interceptor vectors.  The broadcaster is held separately by
the streaming dispatcher and does not influence the routing modelled
here. -/
structure Service (σ : Type) where
  store : Storage σ
  on_received : List (CommandRequest → Option CommandResponse)
  on_executed : List (CommandResponse → Option CommandResponse)
  on_before_send : List (CommandResponse → CommandResponse × Option CommandResponse)
  on_after_send : List (Unit → Option CommandResponse)

/-- What `Service::execute` hands back: a one-element unary stream with
its single response, or the streaming call delegated to the broadcaster. -/
inductive ExecuteOutcome where
  | unary (res : CommandResponse)
  | streaming (call : StreamCall)
deriving DecidableEq, Repr

/-- `Service::execute` (src/service/mod.rs:57): dispatch the command
against the store; if the result is the default sentinel, hand the command
to `dispatch_stream`; otherwise run `self.on_executed.notify(&res)` —
whose returned `Option` the source discards and whose argument is
immutable, so the call has no effect on the emitted response — then
`self.on_before_send.notify(&mut res)` — whose returned `Option` is also
discarded but which mutates `res` in place — and emit `res` as a
one-element stream.  The `on_received` vector is never consulted.
`none` models a panic propagating out of a handler. -/
def Service.execute {σ : Type} (srv : Service σ) (s : σ) (cmd : CommandRequest) :
    Option (ExecuteOutcome × σ) :=
  match dispatch cmd srv.store s with
  | none => none
  | some (res, s1) =>
    if res = CommandResponse.default then
      (dispatch_stream cmd).map fun c => (ExecuteOutcome.streaming c, s1)
    else
      some (.unary (notifyMut srv.on_before_send res).1, s1)

/-- Modelled from the spec: the id-allocation state of the topic
broadcaster (`service/topic.rs` is not under `src/`): `next_id` is a
counter with initial value 1, and allocation is an atomic
fetch-and-increment, so every allocation — concurrent ones included — is
one atomic step and any execution is a sequence of such steps (spec
§4.6).  The spec fixes the id width at 32 bits while asserting uniqueness
across the broadcaster's lifetime; ids are modelled as naturals. -/
structure Broadcaster where
  next_id : Nat

/-- Modelled from the spec: a fresh broadcaster, with `next_id` at its
initial value 1. -/
def Broadcaster.new : Broadcaster := ⟨1⟩

/-- Modelled from the spec: the atomic fetch-and-increment allocating a
subscriber id during `Subscribe` (spec §4.6 step 1): returns the current
counter and bumps it. -/
def Broadcaster.allocId (b : Broadcaster) : Nat × Broadcaster :=
  (b.next_id, ⟨b.next_id + 1⟩)

/-- The ids handed out by `n` successive id allocations (the serialisation
of any execution of `n` subscribes, each allocation being atomic),
together with the final broadcaster state. -/
def Broadcaster.allocIds (b : Broadcaster) : Nat → List Nat × Broadcaster
  | 0 => ([], b)
  | n + 1 =>
    let (id, b1) := b.allocId
    let (ids, b2) := b1.allocIds n
    (id :: ids, b2)

/-- Modelled from the spec: `From<String> for Value` (missing `pb/abi.rs`). -/
def stringValue (s : String) : Value := ⟨some (value.Value.String s)⟩

/-- Modelled from the spec: `From<i64> for Value` (missing `pb/abi.rs`). -/
def integerValue (i : Int) : Value := ⟨some (value.Value.Integer i)⟩

/-- A storage capability whose `get_iter` fails, as the `Storage` trait
permits (and as `Rocksdb::get_iter` does when an iterator item errors). -/
def failingIterStorage : Storage Unit :=
  { get := fun _ _ _ => .ok none
    set := fun s _ _ _ => (.ok none, s)
    contains := fun _ _ _ => .ok false
    del := fun s _ _ => (.ok none, s)
    get_iter := fun _ _ =>
      .error (KvError.StorageError "get_iter" "t1" "" "backend iterator failure") }

/-- A service over the failing-iterator storage with no interceptors. -/
def failingIterService : Service Unit :=
  { store := failingIterStorage
    on_received := []
    on_executed := []
    on_before_send := []
    on_after_send := [] }

theorem lookup_alSet {β : Type} (l : List (String × β)) (a : String) (b : β) :
    (alSet l a b).lookup a = some b := by
  induction l with
  | nil => simp [alSet, List.lookup]
  | cons hd tl ih =>
    obtain ⟨a1, b1⟩ := hd
    by_cases h : a1 = a
    · subst h
      simp [alSet, List.lookup]
    · have hb : (a == a1) = false := by
        simp only [beq_eq_false_iff_ne, ne_eq]
        exact fun hh => h hh.symm
      simp [alSet, h, List.lookup, hb, ih]

theorem alSet_of_lookup_eq {β : Type} (l : List (String × β)) (a : String) (b : β)
    (h : l.lookup a = some b) : alSet l a b = l := by
  induction l with
  | nil => simp [List.lookup] at h
  | cons hd tl ih =>
    obtain ⟨a1, b1⟩ := hd
    by_cases h1 : a1 = a
    · subst h1
      simp [List.lookup] at h
      simp [alSet, h]
    · have hb : (a == a1) = false := by
        simp only [beq_eq_false_iff_ne, ne_eq]
        exact fun hh => h1 hh.symm
      simp [List.lookup, hb] at h
      simp [alSet, h1, ih h]

theorem alRemove_of_lookup_none {β : Type} (l : List (String × β)) (a : String)
    (h : l.lookup a = none) : alRemove l a = l := by
  induction l with
  | nil => simp [alRemove]
  | cons hd tl ih =>
    obtain ⟨a1, b1⟩ := hd
    by_cases h1 : a1 = a
    · subst h1
      simp [List.lookup] at h
    · have hb : (a == a1) = false := by
        simp only [beq_eq_false_iff_ne, ne_eq]
        exact fun hh => h1 hh.symm
      have hcons : List.lookup a ((a1, b1) :: tl) = List.lookup a tl := by
        simp [List.lookup, hb]
      rw [hcons] at h
      simp [alRemove, h1, ih h]

/-- C1: the unary dispatcher's `match` has no `Hmget` arm, so an `Hmget`
request — a unary key-value command — falls to the catch-all arm and is
answered with the default sentinel response, exactly as the streaming
commands are; `Service::execute` therefore forwards it to
`dispatch_stream`, whose own catch-all is `unreachable!()`, a panic
(modelled `none`).  This contradicts the claim that the sentinel is
returned only for Subscribe/Unsubscribe/Publish and that every unary
command, Hmget included, reaches its handler (which exists:
`Hmget.execute`), so the claim is right and the code wrong. -/
theorem dispatch_drops_hmget :
    dispatch ⟨some (.Hmget ⟨"t1", ["k1"]⟩)⟩ rocksdbStorage []
        = some (CommandResponse.default, [])
      ∧ dispatch_stream ⟨some (.Hmget ⟨"t1", ["k1"]⟩)⟩ = none
      ∧ Service.execute
          { store := rocksdbStorage, on_received := [], on_executed := []
            on_before_send := [], on_after_send := [] }
          [] ⟨some (.Hmget ⟨"t1", ["k1"]⟩)⟩ = none := by
  refine ⟨rfl, rfl, rfl⟩

/-- C4 (counterexample): on the rocksdb column-family backend, after
`set("t","k",String "a")` then `set("t","k",Integer 10)`, `get("t","k")`
returns the string value `""` — the serialised integer `[0x18, 0x0A]`
read back through lossy UTF-8 and control-trimming — and not
`Integer 10`, refuting "the value read back equals the value last
written". -/
theorem rocksdb_set_set_get_not_last_written :
    Rocksdb.get
        (Rocksdb.set (Rocksdb.set [] "t" "k" (stringValue "a")).2 "t" "k"
          (integerValue 10)).2 "t" "k"
      = .ok (some (stringValue ""))
    ∧ stringValue "" ≠ integerValue 10 := by
  refine ⟨by rfl, by decide⟩

/-- C4 (amended): after `set(t,k,v1); set(t,k,v2)` on the rocksdb
backend, `get(t,k)` returns `Some` of the value obtained by serialising
`v2` and reading the bytes back through `From<Vec<u8>>` — the lossy-UTF-8,
control-trimmed string interpretation of `v2`'s encoding — which is the
last value written only up to that re-interpretation, not `v2` itself in
general. -/
theorem rocksdb_set_set_get (db : Rocksdb) (t k : String) (v1 v2 : Value) :
    Rocksdb.get (Rocksdb.set (Rocksdb.set db t k v1).2 t k v2).2 t k
      = .ok (some (valueFromBytes (valueTryIntoBytes v2))) := by
  simp [Rocksdb.set, Rocksdb.get, lookup_alSet]

/-- C5: the `Hgetall` handler calls `store.get_iter(&table).unwrap()`, so
a storage-backend failure in `get_iter` panics the executing task
(modelled `none`) instead of being converted into the status-500 response
the claim (and spec §7's propagation policy) requires; the error response
that `e.into()` would have produced indeed carries status 500. -/
theorem hgetall_panics_on_iter_error :
    Hgetall.execute ⟨"t1"⟩ failingIterStorage () = none
      ∧ dispatch ⟨some (.Hgetall ⟨"t1"⟩)⟩ failingIterStorage () = none
      ∧ Service.execute failingIterService () ⟨some (.Hgetall ⟨"t1"⟩)⟩ = none
      ∧ (KvError.StorageError "get_iter" "t1" "" "backend iterator failure").intoResponse.status
          = 500 := by
  refine ⟨rfl, rfl, rfl, rfl⟩

/-- C7: deleting a key that holds no value (absent table or absent key)
on the rocksdb backend returns a status-404 response whose message
contains "Not found", and leaves the database state unchanged. -/
theorem hdel_absent_key (db : Rocksdb) (t k : String)
    (h : Rocksdb.get db t k = .ok none) :
    (Hdel.execute ⟨t, k⟩ rocksdbStorage db).1.status = 404
      ∧ "Not found".toList <:+: (Hdel.execute ⟨t, k⟩ rocksdbStorage db).1.message.toList
      ∧ (Hdel.execute ⟨t, k⟩ rocksdbStorage db).2 = db := by
  have hshape : Hdel.execute ⟨t, k⟩ rocksdbStorage db
      = ((KvError.NotFound t k).intoResponse, db) := by
    cases hdb : List.lookup t db with
    | none =>
      simp [Hdel.execute, rocksdbStorage, Rocksdb.del, hdb]
    | some cf =>
      have hk : List.lookup k cf = none := by
        simpa [Rocksdb.get, hdb] using h
      simp [Hdel.execute, rocksdbStorage, Rocksdb.del, hdb, hk,
        alRemove_of_lookup_none cf k hk, alSet_of_lookup_eq db t cf hdb]
  rw [hshape]
  refine ⟨rfl, ?_, rfl⟩
  have hd : ((KvError.NotFound t k).intoResponse).message
      = "Not found for table: " ++ t ++ ", key: " ++ k := by
    simp [KvError.intoResponse, KvError.display, toString]
  rw [hd]
  have h1 : "Not found".toList <+: "Not found for table: ".toList := by decide
  have h2 : "Not found for table: ".toList
      <+: ("Not found for table: " ++ t ++ ", key: " ++ k).toList := by
    refine ⟨t.toList ++ ", key: ".toList ++ k.toList, ?_⟩
    simp
  exact (h1.trans h2).isInfix

/-- C7 (witness): the theorem applied to the empty database. -/
theorem hdel_absent_key_witness :
    (Hdel.execute ⟨"t1", "k1"⟩ rocksdbStorage []).1.status = 404
      ∧ "Not found".toList <:+: (Hdel.execute ⟨"t1", "k1"⟩ rocksdbStorage []).1.message.toList
      ∧ (Hdel.execute ⟨"t1", "k1"⟩ rocksdbStorage []).2 = [] :=
  hdel_absent_key [] "t1" "k1" rfl

/-- C9: every value read back from the rocksdb backend — through `get`,
`get_all` or `get_iter` — is the `From<Vec<u8>>` image of the stored
bytes: the string variant holding the lossy-UTF-8 decoding of the bytes
with leading and trailing control characters trimmed, whatever variant
was stored. -/
theorem rocksdb_reads_are_trimmed_strings (db : Rocksdb) (t k : String) :
    (∀ v, Rocksdb.get db t k = .ok (some v) →
        ∃ d, v = valueFromBytes d
          ∧ v.value = some (value.Value.String
              (String.mk (trimMatches isControl (utf8Lossy d)))))
      ∧ (∀ pairs, Rocksdb.get_all db t = .ok pairs →
          ∀ p, p ∈ pairs →
            ∃ d, p.value = some (valueFromBytes d)
              ∧ (valueFromBytes d).value = some (value.Value.String
                  (String.mk (trimMatches isControl (utf8Lossy d)))))
      ∧ Rocksdb.get_iter db t = Rocksdb.get_all db t := by
  refine ⟨?_, ?_, rfl⟩
  · intro v hv
    cases hdb : List.lookup t db with
    | none => simp [Rocksdb.get, hdb] at hv
    | some cf =>
      cases hk : List.lookup k cf with
      | none => simp [Rocksdb.get, hdb, hk] at hv
      | some d =>
        have hvd : valueFromBytes d = v := by
          simpa [Rocksdb.get, hdb, hk] using hv
        refine ⟨d, hvd.symm, ?_⟩
        rw [← hvd]
        rfl
  · intro pairs hpairs p hp
    cases hdb : List.lookup t db with
    | none =>
      have hnil : pairs = [] := by
        simpa [Rocksdb.get_all, hdb] using hpairs.symm
      subst hnil
      simp at hp
    | some cf =>
      have hps : (cf.map fun q => (⟨q.1, some (valueFromBytes q.2)⟩ : Kvpair)) = pairs := by
        simpa [Rocksdb.get_all, hdb] using hpairs
      subst hps
      obtain ⟨⟨ks, d⟩, _, rfl⟩ := List.mem_map.mp hp
      exact ⟨d, rfl, rfl⟩

/-- C9 (witness): the theorem applied to a one-table, one-key database
storing the serialised form of `Integer 10`. -/
theorem rocksdb_reads_are_trimmed_strings_witness :
    ∃ d, stringValue "" = valueFromBytes d
      ∧ (stringValue "").value = some (value.Value.String
          (String.mk (trimMatches isControl (utf8Lossy d)))) :=
  (rocksdb_reads_are_trimmed_strings [("t", [("k", [0x18, 0x0A])])] "t" "k").1
    (stringValue "") rfl

/-- A response an interceptor might interpose: permission denied, as in
the source's `early_return_for_special_keys` test. -/
def permissionResponse : CommandResponse :=
  (KvError.PermissionDenied "interceptor rejects this request").intoResponse

/-- A concrete `Hset("t1", ("k1", "v1"))` request. -/
def hsetT1K1 : CommandRequest :=
  ⟨some (.Hset ⟨"t1", some ⟨"k1", some (stringValue "v1")⟩⟩)⟩

/-- A service whose only interceptor is an `on_received` callback that
rejects every request. -/
def serviceWithOnReceived : Service MemTable :=
  { store := memTableStorage
    on_received := [fun _ => some permissionResponse]
    on_executed := []
    on_before_send := []
    on_after_send := [] }

/-- A service whose only interceptor is an `on_executed` callback that
answers every response with `permissionResponse`. -/
def serviceWithOnExecuted : Service MemTable :=
  { store := memTableStorage
    on_received := []
    on_executed := [fun _ => some permissionResponse]
    on_before_send := []
    on_after_send := [] }

theorem notify_append {Arg : Type} (l1 l2 : List (Arg → Option CommandResponse))
    (arg : Arg) (h : notify l1 arg = none) :
    notify (l1 ++ l2) arg = notify l2 arg := by
  induction l1 with
  | nil => rfl
  | cons g rest ih =>
    cases hg : g arg with
    | some r => simp [notify, hg] at h
    | none =>
      have hrest : notify rest arg = none := by
        simpa [notify, hg] using h
      simpa [notify, hg] using ih hrest

theorem notifyMut_append (l1 l2 : List (CommandResponse → CommandResponse × Option CommandResponse))
    (arg : CommandResponse) (h : (notifyMut l1 arg).2 = none) :
    notifyMut (l1 ++ l2) arg = notifyMut l2 (notifyMut l1 arg).1 := by
  induction l1 generalizing arg with
  | nil => rfl
  | cons g rest ih =>
    cases hg : g arg with
    | mk a1 ro =>
      cases ro with
      | none =>
        have hstep : notifyMut ((g :: rest) ++ l2) arg = notifyMut (rest ++ l2) a1 := by
          simp [notifyMut, hg]
        have hstep1 : notifyMut (g :: rest) arg = notifyMut rest a1 := by
          simp [notifyMut, hg]
        rw [hstep1] at h
        rw [hstep, hstep1]
        exact ih a1 h
      | some r =>
        rw [show notifyMut (g :: rest) arg = (a1, some r) from by simp [notifyMut, hg]] at h
        simp at h

/-- C2 (counterexample): a service whose single `on_received` interceptor
returns `Some(permissionResponse)` on every request: executing an `Hset`
nevertheless dispatches the command to storage (the key is written) and
emits the handler's status-200 response, not the interceptor's — because
`Service::execute` never invokes the `on_received` chain.  The source's
own `early_return_for_special_keys` test pins this behaviour: it expects
the non-intercepted responses. -/
theorem execute_ignores_on_received_cex :
    (Service.execute serviceWithOnReceived [] hsetT1K1).map
        (fun p => (p.1, MemTable.get p.2 "t1" "k1"))
      = some (.unary Value.default.intoResponse, some (stringValue "v1"))
    ∧ Value.default.intoResponse ≠ permissionResponse
    ∧ (serviceWithOnReceived.on_received.map fun f => f hsetT1K1)
        = [some permissionResponse] := by
  refine ⟨rfl, by decide, rfl⟩

/-- C2 (amended): `Service::execute` never runs the `on_received` chain:
its result — response, streaming routing and state effect alike — is the
same whatever `on_received` interceptors are registered, so no
`on_received` interceptor can short-circuit dispatch. -/
theorem execute_ignores_on_received {σ : Type} (srv : Service σ)
    (l : List (CommandRequest → Option CommandResponse)) (s : σ) (cmd : CommandRequest) :
    Service.execute { srv with on_received := l } s cmd = Service.execute srv s cmd := rfl

/-- C3 (counterexample): a service whose single `on_executed` interceptor
returns `Some(permissionResponse)`: on the unary `Hset` path the chain
does return that response, yet `Service::execute` emits the command
handler's status-200 response — the interceptor's return value is
discarded, not emitted. -/
theorem on_executed_result_discarded_cex :
    (Service.execute serviceWithOnExecuted [] hsetT1K1).map (fun p => p.1)
        = some (.unary Value.default.intoResponse)
    ∧ notify serviceWithOnExecuted.on_executed Value.default.intoResponse
        = some permissionResponse
    ∧ Value.default.intoResponse ≠ permissionResponse := by
  refine ⟨rfl, rfl, by decide⟩

/-- C3 (amended): an `on_executed` or `on_before_send` interceptor
returning `Some(response)` does short-circuit the rest of its own chain —
the notify loop returns at the first `Some` and never consults the later
functions — but the returned response is not emitted: `Service::execute`
discards both notify results and emits the command handler's response, as
mutated in place by the `on_before_send` functions that ran. -/
theorem interceptor_some_short_circuits_not_replaces :
    (∀ (Arg : Type) (l1 l2 l2' : List (Arg → Option CommandResponse))
        (f : Arg → Option CommandResponse) (arg : Arg) (r : CommandResponse),
        notify l1 arg = none → f arg = some r →
          notify (l1 ++ f :: l2) arg = some r
            ∧ notify (l1 ++ f :: l2) arg = notify (l1 ++ f :: l2') arg)
      ∧ (∀ (l1 l2 l2' : List (CommandResponse → CommandResponse × Option CommandResponse))
          (f : CommandResponse → CommandResponse × Option CommandResponse)
          (arg arg1 : CommandResponse) (r : CommandResponse),
          (notifyMut l1 arg).2 = none → f (notifyMut l1 arg).1 = (arg1, some r) →
            notifyMut (l1 ++ f :: l2) arg = (arg1, some r)
              ∧ notifyMut (l1 ++ f :: l2) arg = notifyMut (l1 ++ f :: l2') arg)
      ∧ (∀ (σ : Type) (srv : Service σ) (s : σ) (cmd : CommandRequest)
          (res : CommandResponse) (s1 : σ),
          dispatch cmd srv.store s = some (res, s1) → res ≠ CommandResponse.default →
            Service.execute srv s cmd
              = some (.unary (notifyMut srv.on_before_send res).1, s1)) := by
  refine ⟨?_, ?_, ?_⟩
  · intro Arg l1 l2 l2' f arg r h1 hf
    have e1 : notify (l1 ++ f :: l2) arg = some r := by
      rw [notify_append l1 (f :: l2) arg h1]
      simp [notify, hf]
    have e2 : notify (l1 ++ f :: l2') arg = some r := by
      rw [notify_append l1 (f :: l2') arg h1]
      simp [notify, hf]
    exact ⟨e1, by rw [e1, e2]⟩
  · intro l1 l2 l2' f arg arg1 r h1 hf
    have e1 : notifyMut (l1 ++ f :: l2) arg = (arg1, some r) := by
      rw [notifyMut_append l1 (f :: l2) arg h1]
      simp [notifyMut, hf]
    have e2 : notifyMut (l1 ++ f :: l2') arg = (arg1, some r) := by
      rw [notifyMut_append l1 (f :: l2') arg h1]
      simp [notifyMut, hf]
    exact ⟨e1, by rw [e1, e2]⟩
  · intro σ srv s cmd res s1 hd hres
    unfold Service.execute
    rw [hd]
    simp [hres]

/-- C3 (amended, witness): the three parts of the theorem applied to
concrete chains — a one-interceptor chain returning `Some` short-circuits
identically whatever follows it, and the service with that `on_executed`
interceptor emits the handler's response. -/
theorem interceptor_some_short_circuits_not_replaces_witness :
    (notify (([] : List (CommandRequest → Option CommandResponse))
          ++ (fun _ => some permissionResponse) :: []) hsetT1K1 = some permissionResponse
        ∧ notify ([] ++ (fun _ => some permissionResponse) :: []) hsetT1K1
            = notify ([] ++ (fun _ => some permissionResponse) :: [fun _ => none]) hsetT1K1)
      ∧ (notifyMut ([] ++ (fun r => (r, some permissionResponse)) :: []) CommandResponse.default
            = (CommandResponse.default, some permissionResponse)
        ∧ notifyMut ([] ++ (fun r => (r, some permissionResponse)) :: []) CommandResponse.default
            = notifyMut ([] ++ (fun r => (r, some permissionResponse)) :: [fun r => (r, none)])
                CommandResponse.default)
      ∧ Service.execute serviceWithOnExecuted [] hsetT1K1
          = some (.unary
              (notifyMut serviceWithOnExecuted.on_before_send Value.default.intoResponse).1,
              [("t1", [("k1", stringValue "v1")])]) :=
  ⟨interceptor_some_short_circuits_not_replaces.1 CommandRequest [] [] [fun _ => none]
      (fun _ => some permissionResponse) hsetT1K1 permissionResponse rfl rfl,
   interceptor_some_short_circuits_not_replaces.2.1 [] [] [fun r => (r, none)]
      (fun r => (r, some permissionResponse)) CommandResponse.default CommandResponse.default
      permissionResponse rfl rfl,
   interceptor_some_short_circuits_not_replaces.2.2 MemTable serviceWithOnExecuted [] hsetT1K1
      Value.default.intoResponse [("t1", [("k1", stringValue "v1")])] rfl (by decide)⟩

/-- C6: the `Hmget` handler, over the in-memory backend, answers with
status 200 and a values list exactly as long as the key list, holding at
each position the stored value for that key, or the default value where
the key is absent. -/
theorem hmget_pads_missing_keys (m : MemTable) (t : String) (keys : List String) :
    (Hmget.execute ⟨t, keys⟩ memTableStorage m).status = 200
      ∧ (Hmget.execute ⟨t, keys⟩ memTableStorage m).values.length = keys.length
      ∧ (Hmget.execute ⟨t, keys⟩ memTableStorage m).values
          = keys.map fun key => (MemTable.get m t key).getD Value.default := by
  have hvals : (Hmget.execute ⟨t, keys⟩ memTableStorage m).values
      = keys.map fun key => (MemTable.get m t key).getD Value.default := by
    simp only [Hmget.execute, valuesIntoResponse]
    refine List.map_congr_left fun key _ => ?_
    have hg : memTableStorage.get m t key = .ok (MemTable.get m t key) := rfl
    rw [hg]
    cases MemTable.get m t key <;> rfl
  refine ⟨rfl, ?_, hvals⟩
  rw [hvals]
  simp

/-- C8: the ids handed out by any number of subscriber-id allocations —
each allocation being one atomic fetch-and-increment step of the
broadcaster's counter, so any concurrent execution serialises into such a
sequence — are pairwise distinct; starting from a fresh broadcaster they
are exactly `1, 2, …, n`, so no id is ever handed out twice while the
broadcaster lives. -/
theorem subscriber_ids_distinct (b : Broadcaster) (n : Nat) :
    ((Broadcaster.allocIds b n).1).Nodup
      ∧ (Broadcaster.allocIds Broadcaster.new n).1 = List.range' 1 n := by
  have hr : ∀ (m : Nat) (bb : Broadcaster),
      (Broadcaster.allocIds bb m).1 = List.range' bb.next_id m := by
    intro m
    induction m with
    | zero => intro bb; rfl
    | succ mm ih =>
      intro bb
      simp [Broadcaster.allocIds, Broadcaster.allocId, ih, List.range']
  constructor
  · rw [hr]
    exact List.nodup_range' _ _ _ (by omega)
  · rw [hr]
    rfl

/-- C10: an `Hset` whose pair is absent takes the handler's `None` arm:
it returns the status-200 response whose values list is the single
default value — not a status-400 invalid-command error — and it never
calls the store, so the state is returned unchanged. -/
theorem hset_absent_pair {σ : Type} (store : Storage σ) (s : σ) (t : String) :
    Hset.execute ⟨t, none⟩ store s = (Value.default.intoResponse, s)
      ∧ (Hset.execute ⟨t, none⟩ store s).1.status = 200
      ∧ (Hset.execute ⟨t, none⟩ store s).1.values = [Value.default] := by
  refine ⟨rfl, rfl, rfl⟩

end Kv
